import Mathlib

/-!
Verification development for the seey_grist payroll reconciliation system.

The definitions below are a shallow embedding of the Python sources:
`src/grist_updater.py` (master-roster reconciliation, name splitting,
rate-change logging, mark-as-left pass), `src/advances_grist_updater.py`,
`src/salary_statement_grist_updater.py`, `src/pfescic_grist_updater.py`
(append-only detail tables with a whole-period guard), and the filename
month-token extractors of `src/excel_reader.py` and
`src/hourclock_excel_reader.py`.

Pandas cell values are embedded as small inductive types (`RateVal`,
`DateVal`, `Option String`) with `null` standing for NaN/None, `num`/
`dateTime` for convertible values and `bad` for present values whose
conversion (`float`, `pd.to_datetime`) raises.  Network writes are
embedded as write plans: the lists of payloads the code would POST/PATCH.
-/

namespace SeeyGrist

/-! ## Python string primitives -/

/-- Tokenizer for Python `str.split()`: walk the characters with an
accumulator, emitting a token at each whitespace run boundary. -/
def wordsAux : List Char → List Char → List String
  | [], acc => if acc.isEmpty then [] else [String.mk acc.reverse]
  | c :: cs, acc =>
    if c.isWhitespace then
      if acc.isEmpty then wordsAux cs [] else String.mk acc.reverse :: wordsAux cs []
    else wordsAux cs (c :: acc)

/-- Python `str.split()` (no argument): split on whitespace runs and drop
empty tokens.  Leading/trailing whitespace never yields a token, so
modelling `.strip().split()` and `.split()` by the same function is
faithful. -/
def pySplit (s : String) : List String :=
  wordsAux s.toList []

/-- Python `str.strip()`: drop leading and trailing whitespace. -/
def pyStrip (s : String) : String :=
  String.mk
    (((s.toList.dropWhile Char.isWhitespace).reverse.dropWhile
      Char.isWhitespace).reverse)

/-- Python `str.capitalize()`: first character upper-cased, the rest
lower-cased (ASCII names). -/
def pyCapitalize (s : String) : String :=
  match s.toList with
  | [] => ""
  | c :: cs => String.mk (c.toUpper :: cs.map Char.toLower)

/-- Python `str.lower()` (ASCII). -/
def pyLower (s : String) : String :=
  String.mk (s.toList.map Char.toLower)

/-! ## Name Splitter (`GristUpdater._split_name`, `_to_sentence_case`) -/

/-- `GristUpdater._to_sentence_case`: capitalize each whitespace word and
join with single spaces. -/
def toSentenceCase (s : String) : String :=
  " ".intercalate ((pySplit s).map pyCapitalize)

/-- Apply `_to_sentence_case(x) if x else None` to an optional name part
(the empty string is falsy in Python). -/
def caseOpt (o : Option String) : Option String :=
  match o with
  | none => none
  | some s => if s = "" then none else some (toSentenceCase s)

/-- Honorific prefixes recognised by `_split_name`. -/
def honorifics : List String := ["md", "mohd", "md.", "mohd."]

/-- `GristUpdater._split_name`: split a full name into
(FirstName, MiddleName, LastName), each optional, sentence-cased. -/
def splitName (fullName : String) : Option String × Option String × Option String :=
  -- `if not full_name_str or pd.isna(full_name_str)`: "" is falsy
  if fullName = "" then (none, none, none)
  else
    match pySplit fullName with
    | [] => (none, none, none)
    | [a] => (caseOpt (some a), none, none)
    | [a, b] => (caseOpt (some a), none, caseOpt (some b))
    | [a, b, c] => (caseOpt (some a), caseOpt (some b), caseOpt (some c))
    | a :: b :: c :: d :: rest =>
      -- more than 3 parts: last part is the last name
      let lastName := List.getLastD (d :: rest) d
      if honorifics.contains (pyLower a) then
        -- `parts[0:2]` joined, middle = `parts[2:-1]`
        let firstName := " ".intercalate [a, b]
        let middleParts := (c :: d :: rest).dropLast
        let middleName := if middleParts.isEmpty then none
          else some (" ".intercalate middleParts)
        (caseOpt (some firstName), caseOpt middleName, caseOpt (some lastName))
      else
        -- first part alone, middle = `parts[1:-1]`
        let middleParts := (b :: c :: d :: rest).dropLast
        let middleName := if middleParts.isEmpty then none
          else some (" ".intercalate middleParts)
        (caseOpt (some a), caseOpt middleName, caseOpt (some lastName))

/-! ## Month-Token Extractor
(`ExcelReader._extract_month_year_from_filename` and
`HourClockExcelReader._extract_month_year_from_filename`)

Both scan the filename with the regex
`(\d{1,2}-\d{1,2}-\d{4})|(\d{4}-\d{1,2}-\d{1,2})` (leftmost match, first
alternative preferred, greedy quantifiers with backtracking), then parse
the matched token with `datetime.strptime` and format with
`strftime("%b-%y")`. -/

/-- Consume exactly `n` digit characters, returning them and the rest. -/
def takeDigits : Nat → List Char → Option (List Char × List Char)
  | 0, cs => some ([], cs)
  | n + 1, c :: cs =>
    if c.isDigit then (takeDigits n cs).map (fun p => (c :: p.1, p.2)) else none
  | _ + 1, [] => none

/-- Consume a literal character. -/
def takeLit (c : Char) : List Char → Option (List Char)
  | x :: rest => if x = c then some rest else none
  | [] => none

/-- Match `\d{a}-\d{b}-\d{c}` at the start of `cs`, returning the matched
characters. -/
def matchDashed (a b c : Nat) (cs : List Char) : Option (List Char) := do
  let (d1, r1) ← takeDigits a cs
  let r2 ← takeLit '-' r1
  let (d2, r3) ← takeDigits b r2
  let r4 ← takeLit '-' r3
  let (d3, _) ← takeDigits c r4
  pure (d1 ++ '-' :: d2 ++ '-' :: d3)

/-- Alternative 1, `\d{1,2}-\d{1,2}-\d{4}`: greedy `{1,2}` quantifiers try
two digits before one, backtracking left to right. -/
def matchAlt1 (cs : List Char) : Option (List Char) :=
  (matchDashed 2 2 4 cs).orElse fun _ =>
    (matchDashed 2 1 4 cs).orElse fun _ =>
      (matchDashed 1 2 4 cs).orElse fun _ => matchDashed 1 1 4 cs

/-- Alternative 2, `\d{4}-\d{1,2}-\d{1,2}`. -/
def matchAlt2 (cs : List Char) : Option (List Char) :=
  (matchDashed 4 2 2 cs).orElse fun _ =>
    (matchDashed 4 2 1 cs).orElse fun _ =>
      (matchDashed 4 1 2 cs).orElse fun _ => matchDashed 4 1 1 cs

/-- `re.search`: scan positions left to right; at each position try the
first alternative, then the second. -/
def findDateTokenAux : List Char → Option String
  | [] => none
  | c :: cs =>
    match matchAlt1 (c :: cs) with
    | some m => some (String.mk m)
    | none =>
      match matchAlt2 (c :: cs) with
      | some m => some (String.mk m)
      | none => findDateTokenAux cs

/-- First date-shaped substring of a filename, per the shared regex. -/
def findDateToken (s : String) : Option String :=
  findDateTokenAux s.toList

/-- A calendar date (the result of a successful `strptime`). -/
structure CalDate where
  year : Nat
  month : Nat
  day : Nat
deriving DecidableEq, Repr

/-- Gregorian leap year, as `datetime` uses. -/
def isLeap (y : Nat) : Bool :=
  y % 4 = 0 && (y % 100 != 0 || y % 400 = 0)

/-- Days in a month, as `datetime` validates. -/
def daysInMonth (y m : Nat) : Nat :=
  if m = 2 then (if isLeap y then 29 else 28)
  else if m = 4 || m = 6 || m = 9 || m = 11 then 30
  else 31

/-- `datetime(year, month, day)`: `some` exactly when the constructor does
not raise (year 1..9999, month 1..12, day within the month). -/
def mkValidDate (y m d : Nat) : Option CalDate :=
  if 1 ≤ y ∧ y ≤ 9999 ∧ 1 ≤ m ∧ m ≤ 12 ∧ 1 ≤ d ∧ d ≤ daysInMonth y m then
    some ⟨y, m, d⟩
  else none

/-- Split a character list on a separator, keeping empty segments
(the semantics of `str.split("-")`). -/
def splitOnCharAux (sep : Char) : List Char → List Char → List (List Char)
  | [], acc => [acc.reverse]
  | c :: cs, acc =>
    if c = sep then acc.reverse :: splitOnCharAux sep cs []
    else splitOnCharAux sep cs (c :: acc)

/-- The dash-separated segments of a token. -/
def dashSegments (t : String) : List (List Char) :=
  splitOnCharAux '-' t.toList []

/-- Decimal value of a digit run. -/
def digitsVal (cs : List Char) : Nat :=
  cs.foldl (fun n c => 10 * n + (c.toNat - 48)) 0

/-- A `%d`/`%m` segment of `strptime`: one or two digits (strptime's day
and month patterns accept no more and reject an empty or non-digit
segment; the numeric range is checked by `mkValidDate`). -/
def segNat2 (cs : List Char) : Option Nat :=
  if cs.length = 0 ∨ 2 < cs.length ∨ !cs.all Char.isDigit then none
  else some (digitsVal cs)

/-- A `%Y` segment of `strptime`: exactly four digits. -/
def segYear4 (cs : List Char) : Option Nat :=
  if cs.length = 4 ∧ cs.all Char.isDigit then some (digitsVal cs) else none

/-- `datetime.strptime(t, "%d-%m-%Y")` on a dash-separated token. -/
def parseDMY (t : String) : Option CalDate :=
  match dashSegments t with
  | [ds, ms, ys] =>
    match segNat2 ds, segNat2 ms, segYear4 ys with
    | some d, some m, some y => mkValidDate y m d
    | _, _, _ => none
  | _ => none

/-- `datetime.strptime(t, "%m-%d-%Y")`. -/
def parseMDY (t : String) : Option CalDate :=
  match dashSegments t with
  | [ms, ds, ys] =>
    match segNat2 ms, segNat2 ds, segYear4 ys with
    | some m, some d, some y => mkValidDate y m d
    | _, _, _ => none
  | _ => none

/-- `datetime.strptime(t, "%Y-%m-%d")`. -/
def parseYMD (t : String) : Option CalDate :=
  match dashSegments t with
  | [ys, ms, ds] =>
    match segYear4 ys, segNat2 ms, segNat2 ds with
    | some y, some m, some d => mkValidDate y m d
    | _, _, _ => none
  | _ => none

/-- Abbreviated month names of `strftime("%b")` (C locale). -/
def monthAbbrev (m : Nat) : String :=
  (["Jan", "Feb", "Mar", "Apr", "May", "Jun",
    "Jul", "Aug", "Sep", "Oct", "Nov", "Dec"]).getD (m - 1) ""

/-- Zero-padded two-digit rendering of `n % 100` for `%y`. -/
def pad2 (n : Nat) : String :=
  if n % 100 < 10 then "0" ++ toString (n % 100) else toString (n % 100)

/-- `strftime("%b-%y")`. -/
def fmtMonYY (d : CalDate) : String :=
  monthAbbrev d.month ++ "-" ++ pad2 d.year

/-- `ExcelReader._extract_month_year_from_filename`: find the first
date-shaped token, parse it with day-month-year ONLY (a parse failure
returns None), format as MMM-YY. -/
def extractMonthYearMaster (filename : String) : Option String :=
  match findDateToken filename with
  | none => none
  | some t =>
    match parseDMY t with
    | none => none
    | some d => some (fmtMonYY d)

/-- `HourClockExcelReader._extract_month_year_from_filename`: find the
first date-shaped token, try day-month-year, then month-day-year, then
year-month-day, format as MMM-YY. -/
def extractMonthYearHourClock (filename : String) : Option String :=
  match findDateToken filename with
  | none => none
  | some t =>
    match parseDMY t with
    | some d => some (fmtMonYY d)
    | none =>
      match parseMDY t with
      | some d => some (fmtMonYY d)
      | none =>
        match parseYMD t with
        | some d => some (fmtMonYY d)
        | none => none

/-! ## Cell values -/

/-- A pandas cell holding a salary rate: NaN/None, a value `float()`
converts, or a present value whose conversion raises. -/
inductive RateVal where
  | null : RateVal
  | num : ℚ → RateVal
  | bad : String → RateVal
deriving DecidableEq, Repr

/-- `pd.notna`. -/
def RateVal.notna : RateVal → Bool
  | .null => false
  | _ => true

/-- `float(x)` inside `try/except`: `some` on success. -/
def RateVal.toFloat : RateVal → Option ℚ
  | .num q => some q
  | _ => none

/-- A pandas cell holding a date: NaN/None/empty, a timestamp (calendar
date plus a time-of-day), or a present value `pd.to_datetime` rejects. -/
inductive DateVal where
  | null : DateVal
  | dateTime : CalDate → Nat → DateVal
  | bad : String → DateVal
deriving DecidableEq, Repr

/-- `pd.to_datetime(x).normalize()` inside `try/except` guarded by
`pd.notna(x)`: the calendar date, or `none` when absent or unparseable. -/
def DateVal.normDate : DateVal → Option CalDate
  | .dateTime d _ => some d
  | _ => none

/-- A value stored in a Grist payload field. -/
inductive FVal where
  | null : FVal
  | str : String → FVal
  | bool : Bool → FVal
  | fnum : ℚ → FVal
deriving DecidableEq, Repr

/-- Python `str()` of a payload value, as interpolated into history
lines (`str(None)`, `str(True)`; the master updater never places a float
in a payload, so the `fnum` rendering is only for totality and renders
integral rationals the way `str()` renders integral floats). -/
def FVal.pyStr : FVal → String
  | .null => "None"
  | .str s => s
  | .bool b => if b then "True" else "False"
  | .fnum q => if q.den = 1 then toString q.num ++ ".0" else toString q

/-! ## Field Comparator (inside `GristUpdater.compare_and_update`) -/

/-- String representation used by the generic field comparison:
`str(x) if pd.notna(x) else "None"`. -/
def pyRepOpt : Option String → String
  | none => "None"
  | some s => s

/-- Comparison of a non-date tracked field (`Perm_Temp`,
`Fixed_Hourly`): skip when both sides are NaN, otherwise compare the
string representations. -/
def strFieldChanged (excelV gristV : Option String) : Bool :=
  if excelV.isSome || gristV.isSome then pyRepOpt excelV != pyRepOpt gristV
  else false

/-- Comparison of the `Date of Joining` field: both sides normalised to
calendar-date granularity (conversion failure leaves `None`), then
compared with `!=`. -/
def dateFieldChanged (excelV gristV : DateVal) : Bool :=
  excelV.normDate != gristV.normDate

/-- Rate comparison of `compare_and_update` (lines 451-464): both
convertible → exact inequality; stored missing/invalid with valid
incoming → different; valid stored with missing/invalid incoming → not
different; both missing/invalid → not different. -/
def ratesAreDifferent (gristRate excelRate : Option ℚ) : Bool :=
  match gristRate, excelRate with
  | some g, some e => g != e
  | none, some _ => true
  | some _, none => false
  | none, none => false

/-! ## Master-roster data model -/

/-- One parsed row of the master salary sheet (columns used by
`GristUpdater.compare_and_update`; `Emp No.` is `none` for NaN). -/
structure ExcelRow where
  empNo : Option String
  name : Option String
  salaryRate : RateVal
  designation : Option String
  permTemp : Option String
  fixedHourly : Option String
  doj : DateVal
deriving DecidableEq, Repr

/-- One existing record of the Grist master table (`SFNo` already cast to
string; `Salary_PerDay` is the stored formula value). -/
structure GristRec where
  id : Nat
  sfno : String
  salaryPerDay : RateVal
  permTemp : Option String
  fixedHourly : Option String
  doj : DateVal
  recordHistory : String
  left : Bool
deriving DecidableEq, Repr

/-- An insert payload (`{'fields': ...}`), as an association list in
insertion order. -/
structure InsertRec where
  fields : List (String × FVal)
deriving DecidableEq, Repr

/-- A patch payload (`{'id': ..., 'fields': ...}`). -/
structure Patch where
  id : Nat
  fields : List (String × FVal)
deriving DecidableEq, Repr

/-- A queued rate-log request (`rate_log_entries_to_process` element). -/
structure RateLogReq where
  empNo : String
  newRate : RateVal
  isInitial : Bool
deriving DecidableEq, Repr

/-- A prepared rate-log record (`_prepare_rate_log_entry_payload`). -/
structure RateLogPayload where
  sfno : String
  newPerDayRate : ℚ
  remarks : String
  recordHistory : Option String
deriving DecidableEq, Repr

/-- Python truthiness of the optional month-year token. -/
def myTruthy : Option String → Bool
  | none => false
  | some s => !(s = "")

/-- `CalDate` rendered as `%Y-%m-%d`. -/
def fmtYMDDash (d : CalDate) : String :=
  (if d.year < 1000 then "0" else "") ++ toString d.year ++ "-" ++
    pad2 d.month ++ "-" ++ pad2 d.day

/-- `_generate_record_history_entry("Inserted New Record")`. -/
def historyInserted (today my : String) : String :=
  today ++ " " ++ my ++ ": " ++ "Inserted New Record"

/-- `_generate_record_history_entry("Updated", field, value)`. -/
def historyUpdated (today my fieldName value : String) : String :=
  today ++ " " ++ my ++ ": " ++ "Updated " ++ fieldName ++ " to " ++ value

/-- Optional string as a payload value (`None` becomes JSON null). -/
def optStrF : Option String → FVal
  | none => .null
  | some s => .str s

/-- The `DOJ` payload value: a Timestamp is formatted `%Y-%m-%d`, any
other present value is passed through raw, NaN becomes null. -/
def dojField : DateVal → FVal
  | .dateTime d _ => .str (fmtYMDDash d)
  | .bad s => .str s
  | .null => .null

/-- `grist_main_fields` built for one Excel row: the mapped columns in
mapping order, then the three name parts from `_split_name`. -/
def gristMainFields (r : ExcelRow) : List (String × FVal) :=
  let nameParts :=
    match r.name with
    | some nm => splitName nm
    | none => (none, none, none)
  [("SFNo", optStrF r.empNo),
   ("Designation", optStrF r.designation),
   ("Perm_Temp", optStrF r.permTemp),
   ("Fixed_Hourly", optStrF r.fixedHourly),
   ("DOJ", dojField r.doj),
   ("FirstName", optStrF nameParts.1),
   ("MiddleName", optStrF nameParts.2.1),
   ("LastName", optStrF nameParts.2.2)]

/-! ## Reconciliation Engine: master table (`GristUpdater.compare_and_update`) -/

/-- Outcome of processing one (cleaned, deduplicated) Excel row.
`insert` is the payload POSTed for a new employee; `insertOk` records
whether that POST succeeded. -/
structure RowOutcome where
  insert : Option InsertRec
  insertOk : Bool
  patch : Option Patch
  rateLog : Option RateLogReq
deriving DecidableEq, Repr

/-- The identity-only keys popped from an update payload. -/
def identityOnlyKeys : List String :=
  ["FirstName", "MiddleName", "LastName", "Designation"]

/-- Build the patch for a changed existing employee: copy
`grist_main_fields`, pop the name parts and `Designation`, then (month
year permitting) append the freshly composed `RecordHistory`. -/
def buildUpdatePatch (today : String) (monthYear : Option String)
    (rec : GristRec) (gmf : List (String × FVal))
    (updatedFields : List String) : Patch :=
  let upd := gmf.filter (fun kv => !(identityOnlyKeys.contains kv.1))
  let upd :=
    if myTruthy monthYear && !updatedFields.isEmpty then
      let my := monthYear.getD ""
      let entries := updatedFields.map (fun f =>
        historyUpdated today my f (FVal.pyStr ((gmf.lookup f).getD (.str "N/A"))))
      let newContent := "\n".intercalate entries
      let newHist :=
        if rec.recordHistory = "" then newContent
        else newContent ++ "\n" ++ rec.recordHistory
      upd ++ [("RecordHistory", FVal.str newHist)]
    else upd
  ⟨rec.id, upd⟩

/-- Process one row of the cleaned Excel data against the pre-fetched
snapshot of existing records. -/
def processRow (monthYear : Option String) (today : String)
    (insertOk : String → Bool) (existing : List GristRec)
    (r : ExcelRow) : RowOutcome :=
  let empNo := r.empNo.getD ""
  let gmf := gristMainFields r
  match existing.filter (fun rec => rec.sfno == empNo) with
  | [] =>
    -- new employee: POST immediately; on success queue an initial rate
    -- log entry when the Excel rate is not NaN
    let fields :=
      if myTruthy monthYear then
        gmf ++ [("RecordHistory", FVal.str (historyInserted today (monthYear.getD "")))]
      else gmf
    if insertOk empNo then
      { insert := some ⟨fields⟩, insertOk := true, patch := none,
        rateLog :=
          if r.salaryRate.notna then some ⟨empNo, r.salaryRate, true⟩ else none }
    else
      { insert := some ⟨fields⟩, insertOk := false, patch := none, rateLog := none }
  | rec :: _ =>
    -- existing employee
    let ratesDiff :=
      ratesAreDifferent rec.salaryPerDay.toFloat r.salaryRate.toFloat
    let rateLog :=
      if ratesDiff && r.salaryRate.notna then some ⟨empNo, r.salaryRate, false⟩
      else none
    let permChanged := strFieldChanged r.permTemp rec.permTemp
    let fixedChanged := strFieldChanged r.fixedHourly rec.fixedHourly
    let dojChanged := dateFieldChanged r.doj rec.doj
    let needsUpdate := permChanged || fixedChanged || dojChanged
    let updatedFields :=
      (if permChanged then ["Perm_Temp"] else []) ++
      (if fixedChanged then ["Fixed_Hourly"] else []) ++
      (if dojChanged then ["DOJ"] else [])
    -- the rate difference is appended to the changed-field list but does
    -- NOT set `needs_update`
    let updatedFields :=
      if ratesDiff && !(updatedFields.contains "Salary_PerDay") then
        updatedFields ++ ["Salary_PerDay"]
      else updatedFields
    { insert := none, insertOk := false,
      patch :=
        if needsUpdate then
          some (buildUpdatePatch today monthYear rec gmf updatedFields)
        else none,
      rateLog := rateLog }

/-- `drop_duplicates(keep='last')`: keep a row only when no later row has
the same key; kept rows stay in input order. -/
def dedupKeepLast {α β : Type} [DecidableEq β] (key : α → β) :
    List α → List α
  | [] => []
  | r :: rs =>
    if rs.any (fun x => key x == key r) then dedupKeepLast key rs
    else r :: dedupKeepLast key rs

/-- Row cleaning of the master updater: drop NaN employee numbers, then
drop the literal string `"nan"`. -/
def cleanMasterRows (excel : List ExcelRow) : List ExcelRow :=
  ((excel.filter (fun r => r.empNo.isSome)).filter
    (fun r => !(r.empNo == some "nan")))

/-- Cleaned then deduplicated (keep-last by `Emp No.`) master rows. -/
def masterRows (excel : List ExcelRow) : List ExcelRow :=
  dedupKeepLast (fun r => r.empNo) (cleanMasterRows excel)

/-- `_prepare_rate_log_entry_payload`: `none` when the queued rate is
NaN (skipped with a warning); `float()` on a non-convertible value raises
(`.error`), which aborts the remaining processing. -/
def prepareRateLog (monthYear : Option String) (e : RateLogReq) :
    Except Unit (Option RateLogPayload) :=
  match e.newRate with
  | .null => .ok none
  | .num q =>
    .ok (some ⟨e.empNo, q,
      (if e.isInitial then "Initial Rate" else "Rate Change - AutoCode"),
      monthYear⟩)
  | .bad _ => .error ()

/-- Prepare all queued rate-log entries in order; the first conversion
failure propagates as an exception. -/
def prepareAllRateLogs (monthYear : Option String) :
    List RateLogReq → Except Unit (List RateLogPayload)
  | [] => .ok []
  | e :: es =>
    match prepareRateLog monthYear e with
    | .error _ => .error ()
    | .ok none => prepareAllRateLogs monthYear es
    | .ok (some p) =>
      match prepareAllRateLogs monthYear es with
      | .error _ => .error ()
      | .ok ps => .ok (p :: ps)

/-- The patch written by the mark-as-left pass for one departed record. -/
def mkLeftPatch (today : String) (monthYear : Option String)
    (rec : GristRec) : Patch :=
  if myTruthy monthYear then
    let entry := historyUpdated today (monthYear.getD "") "Left" "True"
    let hist :=
      if rec.recordHistory = "" then entry
      else entry ++ "\n" ++ rec.recordHistory
    ⟨rec.id, [("Left", FVal.bool true), ("RecordHistory", FVal.str hist)]⟩
  else ⟨rec.id, [("Left", FVal.bool true)]⟩

/-- The write plan produced by one master-table reconciliation run. -/
structure MasterPlan where
  inserts : List InsertRec
  patches : List Patch
  rateLogs : List RateLogPayload
  leftPatches : List Patch
  prepAborted : Bool
deriving DecidableEq, Repr

/-- `GristUpdater.compare_and_update` as a write plan: clean and
deduplicate the Excel rows, process each row (new-employee inserts are
issued immediately, with `insertOk` giving the store's answer), bulk
patch the changed records, prepare and bulk insert the queued rate-log
entries (a `float()` failure there aborts the rate-log insert and the
mark-as-left pass), and finally mark departed employees when the flag is
enabled and both the snapshot and the cleaned batch are nonempty. -/
def compareAndUpdate (markAsLeft : Bool) (monthYear : Option String)
    (today : String) (insertOk : String → Bool)
    (existing : List GristRec) (excel : List ExcelRow) : MasterPlan :=
  let rows := masterRows excel
  let outcomes := rows.map (processRow monthYear today insertOk existing)
  let inserts := outcomes.filterMap
    (fun o => if o.insertOk then o.insert else none)
  let patches := outcomes.filterMap (fun o => o.patch)
  let reqs := outcomes.filterMap (fun o => o.rateLog)
  match prepareAllRateLogs monthYear reqs with
  | .error _ =>
    { inserts := inserts, patches := patches, rateLogs := [],
      leftPatches := [], prepAborted := true }
  | .ok payloads =>
    let leftPatches :=
      if markAsLeft && !existing.isEmpty && !rows.isEmpty then
        let excelEmpNos := rows.map (fun r => r.empNo.getD "")
        ((existing.filter
            (fun rec => !(excelEmpNos.contains rec.sfno))).filterMap
          (fun rec =>
            if rec.left then none
            else some (mkLeftPatch today monthYear rec)))
      else []
    { inserts := inserts, patches := patches, rateLogs := payloads,
      leftPatches := leftPatches, prepAborted := false }

/-! ## Advances updater (`AdvancesGristUpdater.process_excel_data`) -/

/-- One parsed row of the advances sheet. -/
structure AdvRow where
  sfno : Option String
  monthYear : String
  srNo : FVal
  unit : FVal
  advanceAmt : RateVal
  loanAmt : RateVal
deriving DecidableEq, Repr

/-- One existing record of the advances table (as seen through the
server-side `Month_Year` filter). -/
structure AdvRec where
  sfno : String
  monthYear : String
deriving DecidableEq, Repr

/-- `pd.to_numeric(x, errors='coerce')`: NaN on failure. -/
def toNumericCoerce : RateVal → Option ℚ
  | .num q => some q
  | _ => none

/-- `pd.isna(x) or x == 0` on a coerced numeric. -/
def isNaOrZero : Option ℚ → Bool
  | none => true
  | some q => q == 0

/-- An amount payload value: `float()` or None on failure, None for NaN. -/
def advAmtF : RateVal → FVal
  | .num q => .fnum q
  | .bad _ => .null
  | .null => .null

/-- The insert payload built for one advances row. -/
def advPayload (my : String) (cols : List String) (r : AdvRow) : InsertRec :=
  ⟨[("Month_Year", FVal.str my), ("SFNo", optStrF r.sfno)] ++
    (if cols.contains "SrNo" then [("SrNo", r.srNo)] else []) ++
    (if cols.contains "Unit" then [("Unit", r.unit)] else []) ++
    (if cols.contains "Advance_Amt" then [("Advance_Amt", advAmtF r.advanceAmt)]
     else []) ++
    (if cols.contains "Loan_Amt" then [("Loan_Amt", advAmtF r.loanAmt)]
     else [])⟩

/-- The advances row loop: skip rows whose employee already has a record
for the month and rows with neither an advance nor a loan amount;
otherwise prepare an insert payload. -/
def advLoop (my : String) (cols : List String)
    (existingSfnos : List String) : List AdvRow → List InsertRec × List String
  | [] => ([], [])
  | r :: rs =>
    let rest := advLoop my cols existingSfnos rs
    let empNo := r.sfno.getD ""
    if existingSfnos.contains empNo then (rest.1, empNo :: rest.2)
    else if isNaOrZero (toNumericCoerce r.advanceAmt) &&
        isNaOrZero (toNumericCoerce r.loanAmt) then
      (rest.1, empNo :: rest.2)
    else (advPayload my cols r :: rest.1, rest.2)

/-- Advances cleaning: drop NaN and literal-"nan" employee numbers, cast
and strip the rest. -/
def advClean (rows : List AdvRow) : List AdvRow :=
  (((rows.filter (fun r => r.sfno.isSome)).filter
      (fun r => !(r.sfno == some "nan"))).map
    (fun r => { r with sfno := some (pyStrip (r.sfno.getD "")) }))

/-- Result of one advances run. -/
structure AdvResult where
  inserts : List InsertRec
  skippedSfnos : List String
  skippedCount : Nat
  errorLogged : Bool
deriving DecidableEq, Repr

/-- `AdvancesGristUpdater.process_excel_data`: abort with a logged error
when the month-year is unset, the schema is unavailable, or ANY existing
record already carries the batch's `Month_Year`; otherwise clean,
deduplicate by (SFNo, Month_Year) keeping the last occurrence, and run
the row loop.  The updater issues no patch operation at all. -/
def advancesProcess (monthYear : Option String) (tableColumns : List String)
    (existing : List AdvRec) (rows : List AdvRow) : AdvResult :=
  match monthYear with
  | none => ⟨[], [], 0, true⟩
  | some my =>
    if tableColumns.isEmpty then ⟨[], [], 0, true⟩
    else if existing.any (fun rec => rec.monthYear == my) then
      ⟨[], [], 0, true⟩
    else
      let deduped := dedupKeepLast
        (fun r : AdvRow => (r.sfno.getD "", r.monthYear)) (advClean rows)
      let existingSfnos := existing.filterMap (fun rec =>
        if rec.monthYear == my then
          (if rec.sfno = "" then none else some (pyStrip rec.sfno))
        else none)
      let (ins, skipped) := advLoop my tableColumns existingSfnos deduped
      ⟨ins, skipped, skipped.length, false⟩

/-! ## Salary-statement updater
(`SalaryStatementGristUpdater.process_excel_data`) -/

/-- One parsed row of the salary-statement dump: `SrNo` plus the numeric
pay-component cells in mapping order. -/
structure SSRow where
  sfno : Option String
  monthYear : String
  srNo : FVal
  nums : List (String × RateVal)
deriving DecidableEq, Repr

/-- An existing salary-statement record. -/
structure SSRec where
  sfno : String
  monthYear : String
deriving DecidableEq, Repr

/-- A numeric payload cell: converted to float, None when the conversion
fails, 0.0 when the cell is NaN. -/
def ssNumF : RateVal → FVal
  | .num q => .fnum q
  | .bad _ => .null
  | .null => .fnum 0

/-- The insert payload built for one salary-statement row. -/
def ssPayload (my : String) (cols : List String) (r : SSRow) : InsertRec :=
  ⟨[("Month_Year", FVal.str my), ("SFNo", optStrF r.sfno)] ++
    (if cols.contains "SrNo" then [("SrNo", r.srNo)] else []) ++
    ((r.nums.filter (fun kv => cols.contains kv.1)).map
      (fun kv => (kv.1, ssNumF kv.2)))⟩

/-- Salary-statement cleaning (same as advances). -/
def ssClean (rows : List SSRow) : List SSRow :=
  (((rows.filter (fun r => r.sfno.isSome)).filter
      (fun r => !(r.sfno == some "nan"))).map
    (fun r => { r with sfno := some (pyStrip (r.sfno.getD "")) }))

/-- Result of one salary-statement run. -/
structure SSResult where
  inserts : List InsertRec
  skippedCount : Nat
  errorLogged : Bool
deriving DecidableEq, Repr

/-- `SalaryStatementGristUpdater.process_excel_data`: same whole-period
guard as advances (error logged, all rows counted skipped), then every
cleaned and deduplicated row is inserted.  No patch operation exists. -/
def ssProcess (monthYear : Option String) (tableColumns : List String)
    (existing : List SSRec) (rows : List SSRow) : SSResult :=
  match monthYear with
  | none => ⟨[], 0, true⟩
  | some my =>
    if tableColumns.isEmpty then ⟨[], 0, true⟩
    else if existing.any (fun rec => rec.monthYear == my) then
      ⟨[], rows.length, true⟩
    else
      let deduped := dedupKeepLast
        (fun r : SSRow => (r.sfno.getD "", r.monthYear)) (ssClean rows)
      ⟨deduped.map (ssPayload my tableColumns), 0, false⟩

/-! ## PF/ESIC updater (`PfEsicGristUpdater.update_grist_tables`) -/

/-- An existing PF/ESIC dump record. -/
structure PfRec where
  monthYear : String
deriving DecidableEq, Repr

/-- Result of one PF/ESIC run, with the log severity of the abort path
made observable: the whole-period guard logs a WARNING (and the caller an
info line), not an error. -/
structure PfResult where
  insertsPfesic : List InsertRec
  insertsNw : List InsertRec
  warnLogged : Bool
  errLogged : Bool
deriving DecidableEq, Repr

/-- `_prepare_records_payload` for one already-column-mapped row: NaN
cells become JSON null (rows are embedded as their mapped field lists,
with `FVal.null` standing for NaN). -/
def pfPrepare (row : List (String × FVal)) : InsertRec := ⟨row⟩

/-- `PfEsicGristUpdater.update_grist_tables` with
`check_existing_month_year_records`: a missing month-year logs an error
and aborts; an existing record for the month logs a warning and aborts;
otherwise both dataframes are bulk inserted. -/
def pfesicUpdate (monthYear : Option String) (existing : List PfRec)
    (rows nwRows : List (List (String × FVal))) : PfResult :=
  match monthYear with
  | none => ⟨[], [], false, true⟩
  | some my =>
    if existing.any (fun rec => rec.monthYear == my) then
      ⟨[], [], true, false⟩
    else
      ⟨rows.map pfPrepare, nwRows.map pfPrepare, false, false⟩

/-! ## Helper lemmas -/

theorem intercalate_go_length (xs : List String) : ∀ (acc s : String),
    acc.length ≤ (String.intercalate.go acc s xs).length := by
  induction xs with
  | nil => intro acc s; simp [String.intercalate.go]
  | cons a as ih =>
    intro acc s
    rw [String.intercalate.go]
    calc acc.length ≤ (acc ++ s ++ a).length := by
          simp [String.length_append]; omega
      _ ≤ _ := ih (acc ++ s ++ a) s

theorem intercalate_ne_empty (x : String) (xs : List String) (h : x ≠ "") :
    String.intercalate " " (x :: xs) ≠ "" := by
  intro hcon
  have h1 : 0 < x.length := by
    cases x with
    | mk l =>
      cases l with
      | nil => simp at h
      | cons c cs => simp [String.length, List.length]
  have h2 := intercalate_go_length xs x " "
  rw [show String.intercalate " " (x :: xs) = String.intercalate.go x " " xs
    from rfl] at hcon
  rw [hcon] at h2
  have h3 : ("" : String).length = 0 := rfl
  omega

theorem mem_wordsAux_ne_empty (cs : List Char) : ∀ (acc : List Char)
    (t : String), t ∈ wordsAux cs acc → t ≠ "" := by
  induction cs with
  | nil =>
    intro acc t h hcon
    subst hcon
    unfold wordsAux at h
    by_cases hacc : acc.isEmpty
    · simp [hacc] at h
    · simp [hacc] at h
      have : acc.reverse = [] := by
        have := congrArg String.data h.symm
        simpa using this
      simp at this
      subst this
      simp at hacc
  | cons c cs ih =>
    intro acc t h hcon
    subst hcon
    unfold wordsAux at h
    by_cases hws : c.isWhitespace
    · by_cases hacc : acc.isEmpty
      · simp [hws, hacc] at h
        exact ih [] "" h rfl
      · simp [hws, hacc] at h
        rcases h with h | h
        · have : acc.reverse = [] := by
            have := congrArg String.data h
            simpa using this
          simp at this
          subst this
          simp at hacc
        · exact ih [] "" h rfl
    · simp [hws] at h
      exact ih (c :: acc) "" h rfl

theorem mem_pySplit_ne_empty {t s : String} (h : t ∈ pySplit s) : t ≠ "" :=
  mem_wordsAux_ne_empty s.toList [] t h

/-- The interior tokens of a ≥4-token name, joined and title-cased
(absent if there are none): the shape the claim describes. -/
def interiorJoined (l : List String) : Option String :=
  if l = [] then none else some (toSentenceCase (" ".intercalate l))

theorem getLast_getD_cons (d : String) (rest : List String) (x : String) :
    (d :: rest).getLast?.getD x = rest.getLast?.getD d := by
  cases hrev : rest.getLast? with
  | none =>
    have hnil : rest = [] := by
      cases rest with
      | nil => rfl
      | cons y ys => simp [List.getLast?_cons] at hrev
    subst hnil
    simp
  | some y =>
    simp [List.getLast?_cons, List.getLastD_eq_getLast?, hrev]

/-! ## Claim theorems -/

/-- Claim C6: the Name Splitter is total and deterministic; 0 tokens give
(absent, absent, absent); 1 token gives (token, absent, absent); 2 tokens
give (token1, absent, token2); 3 tokens give (token1, token2, token3);
with 4 or more tokens the last token is the last name, an honorific first
token ("md"/"mohd", optionally with a trailing period, case-insensitive)
makes the first name the join of the first two tokens with the remaining
interior tokens as the middle name, and otherwise the first token alone
is the first name with the interior tokens as the middle name; every
non-absent part is title-cased. -/
theorem c6_name_splitter_cases (s : String) :
    (pySplit s = [] → splitName s = (none, none, none)) ∧
    (∀ a, pySplit s = [a] →
      splitName s = (some (toSentenceCase a), none, none)) ∧
    (∀ a b, pySplit s = [a, b] →
      splitName s = (some (toSentenceCase a), none, some (toSentenceCase b))) ∧
    (∀ a b c, pySplit s = [a, b, c] →
      splitName s = (some (toSentenceCase a), some (toSentenceCase b),
        some (toSentenceCase c))) ∧
    (∀ parts, pySplit s = parts → 4 ≤ parts.length →
      splitName s =
        (if honorifics.contains (pyLower (parts.headD "")) then
          (some (toSentenceCase (" ".intercalate (parts.take 2))),
           interiorJoined (parts.drop 2).dropLast,
           some (toSentenceCase (parts.getLastD "")))
        else
          (some (toSentenceCase (parts.headD "")),
           interiorJoined (parts.drop 1).dropLast,
           some (toSentenceCase (parts.getLastD ""))))) := by
  have hempty : pySplit "" = [] := by decide
  refine ⟨?_, ?_, ?_, ?_, ?_⟩
  · intro h
    unfold splitName
    by_cases hs : s = ""
    · simp [hs]
    · simp [hs, h]
  · intro a h
    have ha : a ≠ "" := @mem_pySplit_ne_empty a s (by rw [h]; simp)
    by_cases hs : s = ""
    · rw [hs, hempty] at h; exact absurd h (by simp)
    · unfold splitName
      simp [hs, h, caseOpt, ha]
  · intro a b h
    have ha : a ≠ "" := @mem_pySplit_ne_empty a s (by rw [h]; simp)
    have hb : b ≠ "" := @mem_pySplit_ne_empty b s (by rw [h]; simp)
    by_cases hs : s = ""
    · rw [hs, hempty] at h; exact absurd h (by simp)
    · unfold splitName
      simp [hs, h, caseOpt, ha, hb]
  · intro a b c h
    have ha : a ≠ "" := @mem_pySplit_ne_empty a s (by rw [h]; simp)
    have hb : b ≠ "" := @mem_pySplit_ne_empty b s (by rw [h]; simp)
    have hc : c ≠ "" := @mem_pySplit_ne_empty c s (by rw [h]; simp)
    by_cases hs : s = ""
    · rw [hs, hempty] at h; exact absurd h (by simp)
    · unfold splitName
      simp [hs, h, caseOpt, ha, hb, hc]
  · intro parts h hlen
    obtain ⟨a, b, c, d, rest, rfl⟩ :
        ∃ a b c d rest, parts = a :: b :: c :: d :: rest := by
      cases parts with
      | nil => simp at hlen
      | cons a l1 =>
        cases l1 with
        | nil => simp at hlen
        | cons b l2 =>
          cases l2 with
          | nil => simp at hlen
          | cons c l3 =>
            cases l3 with
            | nil => simp at hlen
            | cons d rest => exact ⟨a, b, c, d, rest, rfl⟩
    have ha : a ≠ "" := @mem_pySplit_ne_empty a s (by rw [h]; simp)
    have hb : b ≠ "" := @mem_pySplit_ne_empty b s (by rw [h]; simp)
    have hc : c ≠ "" := @mem_pySplit_ne_empty c s (by rw [h]; simp)
    have hmem0 : rest.getLast?.getD d ∈ d :: rest := by
      have h0 := List.getLastD_mem_cons rest d
      simpa using h0
    have hlast : rest.getLast?.getD d ≠ "" := by
      refine @mem_pySplit_ne_empty _ s ?_
      rw [h]
      rcases List.mem_cons.mp hmem0 with h2 | h2
      · rw [h2]; simp
      · simp [h2]
    have hs : s ≠ "" := by
      intro hcon
      rw [hcon, hempty] at h
      exact absurd h.symm (by simp)
    unfold splitName
    rw [if_neg hs, h]
    have hdl : (c :: d :: rest).dropLast = c :: (d :: rest).dropLast := by
      simp [List.dropLast]
    have hdl2 : (b :: c :: d :: rest).dropLast = b :: (c :: d :: rest).dropLast := by
      simp [List.dropLast]
    simp only [List.headD_cons, List.take, List.drop, List.getLastD_cons,
      List.getLastD_eq_getLast?]
    by_cases hhon : honorifics.contains (pyLower a)
    · rw [if_pos hhon, if_pos hhon]
      refine congrArg₂ _ ?_ (congrArg₂ _ ?_ ?_)
      · simp [caseOpt, intercalate_ne_empty a [b] ha]
      · rw [hdl]
        simp [caseOpt, interiorJoined, intercalate_ne_empty c _ hc]
      · simp [caseOpt, getLast_getD_cons, hlast]
    · rw [if_neg hhon, if_neg hhon]
      refine congrArg₂ _ ?_ (congrArg₂ _ ?_ ?_)
      · simp [caseOpt, ha]
      · rw [hdl2]
        simp [caseOpt, interiorJoined, intercalate_ne_empty b _ hb]
      · simp [caseOpt, getLast_getD_cons, hlast]

/-- Witness for C6: concrete evaluations discharging each hypothesis of
the case theorem. -/
theorem c6_name_splitter_cases_witness :
    splitName "Md ghulam Abdul sattar Mustafa" =
      (some "Md Ghulam", some "Abdul Sattar", some "Mustafa") ∧
    splitName "md ali Khan" = (some "Md", some "Ali", some "Khan") ∧
    splitName "  john  " = (some "John", none, none) ∧
    splitName "" = (none, none, none) := by
  refine ⟨?_, ?_, ?_, ?_⟩
  · have h := (c6_name_splitter_cases "Md ghulam Abdul sattar Mustafa").2.2.2.2
      ["Md", "ghulam", "Abdul", "sattar", "Mustafa"] (by decide) (by decide)
    rw [h]
    decide
  · have h := (c6_name_splitter_cases "md ali Khan").2.2.2.1
      "md" "ali" "Khan" (by decide)
    rw [h]
    decide
  · have h := (c6_name_splitter_cases "  john  ").2.1 "john" (by decide)
    rw [h]
    decide
  · exact (c6_name_splitter_cases "").1 (by decide)

/-- Counterexample to claim C5: the filename "att-12-25-2024.xlsx"
contains the date-shaped substring "12-25-2024"; day-month-year fails
(month 25) but month-day-year parses, so an extractor trying the three
interpretations in order returns "Dec-24" — the hour-clock reader does,
but the master reader's extractor returns absent, refuting the claim that
every Month-Token Extractor tries the month-day-year and year-month-day
fallbacks. -/
theorem c5_counterexample :
    findDateToken "att-12-25-2024.xlsx" = some "12-25-2024" ∧
    extractMonthYearHourClock "att-12-25-2024.xlsx" = some "Dec-24" ∧
    extractMonthYearMaster "att-12-25-2024.xlsx" = none := by
  decide

/-- Claim C5 (amended): both extractors find the first date-shaped
3-component dash-separated substring and return the abbreviated-month/
2-digit-year token of the first successfully parsed interpretation,
returning absent (never raising) when there is no such substring or no
interpretation parses; the hour-clock extractor tries day-month-year,
then month-day-year, then year-month-day, while the master-roster
extractor tries ONLY day-month-year; a filename containing "12-05-2025"
yields "May-25" in both. -/
theorem c5_month_token_extractors :
    (∀ fn, extractMonthYearHourClock fn =
      (findDateToken fn).bind (fun t =>
        (((parseDMY t).orElse (fun _ => parseMDY t)).orElse
          (fun _ => parseYMD t)).map fmtMonYY)) ∧
    (∀ fn, extractMonthYearMaster fn =
      (findDateToken fn).bind (fun t => (parseDMY t).map fmtMonYY)) ∧
    extractMonthYearHourClock "Sheet-12-05-2025.xlsx" = some "May-25" ∧
    extractMonthYearMaster "Sheet-12-05-2025.xlsx" = some "May-25" := by
  refine ⟨?_, ?_, by decide, by decide⟩
  · intro fn
    unfold extractMonthYearHourClock
    cases findDateToken fn with
    | none => rfl
    | some t =>
      simp only [Option.some_bind]
      cases h1 : parseDMY t with
      | some d => simp [h1, Option.orElse]
      | none =>
        cases h2 : parseMDY t with
        | some d => simp [h1, h2, Option.orElse]
        | none =>
          cases h3 : parseYMD t with
          | some d => simp [h1, h2, h3, Option.orElse]
          | none => simp [h1, h2, h3, Option.orElse]
  · intro fn
    unfold extractMonthYearMaster
    cases findDateToken fn with
    | none => rfl
    | some t =>
      simp only [Option.some_bind]
      cases h1 : parseDMY t with
      | some d => simp [h1]
      | none => simp [h1]

/-- Counterexample to claim C2: when a PF/ESIC record for the period
already exists, the batch is aborted with zero inserts, but the guard
logs a WARNING (`check_existing_month_year_records`, line 136) and an
info line, not an error. -/
theorem c2_counterexample :
    (pfesicUpdate (some "Mar-24") [⟨"Mar-24"⟩]
      [[("PF_Amt", FVal.fnum 10)]] []).insertsPfesic = [] ∧
    (pfesicUpdate (some "Mar-24") [⟨"Mar-24"⟩]
      [[("PF_Amt", FVal.fnum 10)]] []).warnLogged = true ∧
    (pfesicUpdate (some "Mar-24") [⟨"Mar-24"⟩]
      [[("PF_Amt", FVal.fnum 10)]] []).errLogged = false := by
  decide

/-- Claim C2 (amended): for each append-only detail table, if at least
one existing record's reporting period equals the batch's period, the
run performs zero writes regardless of the incoming row count — the
whole batch is aborted before row-level processing; the advances and
salary-statement updaters log an error, while the PF/ESIC updater logs a
warning. -/
theorem c2_append_only_period_guard :
    (∀ (my : String) (cols : List String) (existing : List AdvRec)
      (rows : List AdvRow),
      cols ≠ [] → (∃ rec ∈ existing, rec.monthYear = my) →
      (advancesProcess (some my) cols existing rows).inserts = [] ∧
      (advancesProcess (some my) cols existing rows).errorLogged = true) ∧
    (∀ (my : String) (cols : List String) (existing : List SSRec)
      (rows : List SSRow),
      cols ≠ [] → (∃ rec ∈ existing, rec.monthYear = my) →
      (ssProcess (some my) cols existing rows).inserts = [] ∧
      (ssProcess (some my) cols existing rows).errorLogged = true) ∧
    (∀ (my : String) (existing : List PfRec)
      (rows nwRows : List (List (String × FVal))),
      (∃ rec ∈ existing, rec.monthYear = my) →
      (pfesicUpdate (some my) existing rows nwRows).insertsPfesic = [] ∧
      (pfesicUpdate (some my) existing rows nwRows).insertsNw = [] ∧
      (pfesicUpdate (some my) existing rows nwRows).warnLogged = true) := by
  refine ⟨?_, ?_, ?_⟩
  · intro my cols existing rows hcols hex
    have hany : existing.any (fun rec => rec.monthYear == my) = true := by
      obtain ⟨rec, hmem, heq⟩ := hex
      exact List.any_eq_true.mpr ⟨rec, hmem, by simp [heq]⟩
    unfold advancesProcess
    simp [hcols, hany]
  · intro my cols existing rows hcols hex
    have hany : existing.any (fun rec => rec.monthYear == my) = true := by
      obtain ⟨rec, hmem, heq⟩ := hex
      exact List.any_eq_true.mpr ⟨rec, hmem, by simp [heq]⟩
    unfold ssProcess
    simp [hcols, hany]
  · intro my existing rows nwRows hex
    have hany : existing.any (fun rec => rec.monthYear == my) = true := by
      obtain ⟨rec, hmem, heq⟩ := hex
      exact List.any_eq_true.mpr ⟨rec, hmem, by simp [heq]⟩
    unfold pfesicUpdate
    simp [hany]

/-- Witness for C2 (amended): a two-row advances batch and a one-row
salary-statement batch against a snapshot that already holds the period
produce zero inserts with an error logged. -/
theorem c2_append_only_period_guard_witness :
    (advancesProcess (some "Mar-24") ["SrNo"] [⟨"SF001", "Mar-24"⟩]
      [⟨some "SF002", "Mar-24", FVal.null, FVal.null, RateVal.num 100, RateVal.null⟩,
       ⟨some "SF003", "Mar-24", FVal.null, FVal.null, RateVal.num 200, RateVal.null⟩]).inserts = [] ∧
    (advancesProcess (some "Mar-24") ["SrNo"] [⟨"SF001", "Mar-24"⟩]
      [⟨some "SF002", "Mar-24", FVal.null, FVal.null, RateVal.num 100, RateVal.null⟩,
       ⟨some "SF003", "Mar-24", FVal.null, FVal.null, RateVal.num 200, RateVal.null⟩]).errorLogged = true ∧
    (ssProcess (some "Mar-24") ["SrNo"] [⟨"SF001", "Mar-24"⟩]
      [⟨some "SF002", "Mar-24", FVal.null, []⟩]).inserts = [] := by
  refine ⟨?_, ?_, ?_⟩
  · exact (c2_append_only_period_guard.1 "Mar-24" ["SrNo"] [⟨"SF001", "Mar-24"⟩]
      [⟨some "SF002", "Mar-24", FVal.null, FVal.null, RateVal.num 100, RateVal.null⟩,
       ⟨some "SF003", "Mar-24", FVal.null, FVal.null, RateVal.num 200, RateVal.null⟩]
      (by decide) ⟨⟨"SF001", "Mar-24"⟩, by decide, rfl⟩).1
  · exact (c2_append_only_period_guard.1 "Mar-24" ["SrNo"] [⟨"SF001", "Mar-24"⟩]
      [⟨some "SF002", "Mar-24", FVal.null, FVal.null, RateVal.num 100, RateVal.null⟩,
       ⟨some "SF003", "Mar-24", FVal.null, FVal.null, RateVal.num 200, RateVal.null⟩]
      (by decide) ⟨⟨"SF001", "Mar-24"⟩, by decide, rfl⟩).2
  · exact (c2_append_only_period_guard.2.1 "Mar-24" ["SrNo"] [⟨"SF001", "Mar-24"⟩]
      [⟨some "SF002", "Mar-24", FVal.null, []⟩]
      (by decide) ⟨⟨"SF001", "Mar-24"⟩, by decide, rfl⟩).1

/-- Counterexample to claim C4: the pay-rate field comparison with a
valid stored rate (500) and an absent incoming rate has exactly one side
absent, yet the comparator reports "not changed" (no update, no rate-log
entry), refuting "exactly one absent implies changed" for every tracked
field. -/
theorem c4_counterexample :
    (RateVal.num 500).notna = true ∧
    RateVal.null.notna = false ∧
    ratesAreDifferent (RateVal.num 500).toFloat RateVal.null.toFloat = false := by
  decide

/-- Claim C4 (amended): both absent is unchanged for every tracked
field; date fields are compared at calendar-date granularity (equal dates
with different times are unchanged, a side that fails to parse counts as
absent) and exactly one absent date is changed; for the string fields
exactly one absent is changed unless the present side's text is the
literal "None" placeholder; the numeric rate field is converted with
`float()` and compared with exact equality (100 vs 100 unchanged, 100 vs
100.01 changed), but its absent/unconvertible handling is asymmetric: a
missing or unconvertible incoming rate is never a change, while a missing
or unconvertible stored rate with a valid incoming rate is a change; no
conversion failure is fatal (the comparators are total functions). -/
theorem c4_field_comparator :
    (strFieldChanged none none = false ∧
      dateFieldChanged DateVal.null DateVal.null = false ∧
      ratesAreDifferent RateVal.null.toFloat RateVal.null.toFloat = false) ∧
    (∀ d t1 t2, dateFieldChanged (DateVal.dateTime d t1)
      (DateVal.dateTime d t2) = false) ∧
    (∀ d1 t1 d2 t2, d1 ≠ d2 → dateFieldChanged (DateVal.dateTime d1 t1)
      (DateVal.dateTime d2 t2) = true) ∧
    (∀ d t, dateFieldChanged (DateVal.dateTime d t) DateVal.null = true) ∧
    (∀ d t, dateFieldChanged DateVal.null (DateVal.dateTime d t) = true) ∧
    (∀ s, dateFieldChanged (DateVal.bad s) DateVal.null = false) ∧
    (∀ v, v ≠ "None" → strFieldChanged (some v) none = true) ∧
    (∀ v, v ≠ "None" → strFieldChanged none (some v) = true) ∧
    (∀ v w, strFieldChanged (some v) (some w) = (v != w)) ∧
    (∀ p q : ℚ, ratesAreDifferent (RateVal.num p).toFloat
      (RateVal.num q).toFloat = (p != q)) ∧
    (ratesAreDifferent (RateVal.num 100).toFloat
      (RateVal.num 100).toFloat = false ∧
      ratesAreDifferent (RateVal.num 100).toFloat
        (RateVal.num (10001 / 100)).toFloat = true) ∧
    (∀ (p : ℚ) (s : String), ratesAreDifferent (RateVal.num p).toFloat
      (RateVal.bad s).toFloat = false) ∧
    (∀ p : ℚ, ratesAreDifferent (RateVal.num p).toFloat
      RateVal.null.toFloat = false) ∧
    (∀ (q : ℚ) (s : String), ratesAreDifferent (RateVal.bad s).toFloat
      (RateVal.num q).toFloat = true) ∧
    (∀ q : ℚ, ratesAreDifferent RateVal.null.toFloat
      (RateVal.num q).toFloat = true) := by
  refine ⟨by decide, ?_, ?_, ?_, ?_, ?_, ?_, ?_, ?_, ?_,
    by norm_num [ratesAreDifferent, RateVal.toFloat], ?_, ?_, ?_, ?_⟩
  · intro d t1 t2
    simp [dateFieldChanged, DateVal.normDate]
  · intro d1 t1 d2 t2 h
    simp [dateFieldChanged, DateVal.normDate, h]
  · intro d t
    simp [dateFieldChanged, DateVal.normDate]
  · intro d t
    simp [dateFieldChanged, DateVal.normDate]
  · intro s
    simp [dateFieldChanged, DateVal.normDate]
  · intro v h
    simp [strFieldChanged, pyRepOpt, bne_iff_ne]
    exact h
  · intro v h
    simp [strFieldChanged, pyRepOpt, bne_iff_ne]
    exact fun hcon => h hcon.symm
  · intro v w
    simp [strFieldChanged, pyRepOpt]
  · intro p q
    simp [ratesAreDifferent, RateVal.toFloat]
  · intro p s
    simp [ratesAreDifferent, RateVal.toFloat]
  · intro p
    simp [ratesAreDifferent, RateVal.toFloat]
  · intro q s
    simp [ratesAreDifferent, RateVal.toFloat]
  · intro q
    simp [ratesAreDifferent, RateVal.toFloat]

/-- Witness for C4 (amended): the hypothesis-bearing conjuncts at
concrete inputs. -/
theorem c4_field_comparator_witness :
    dateFieldChanged (DateVal.dateTime ⟨2024, 3, 1⟩ 0)
      (DateVal.dateTime ⟨2024, 3, 2⟩ 0) = true ∧
    strFieldChanged (some "Perm") none = true ∧
    strFieldChanged none (some "Temp") = true := by
  refine ⟨?_, ?_, ?_⟩
  · exact c4_field_comparator.2.2.1 ⟨2024, 3, 1⟩ 0 ⟨2024, 3, 2⟩ 0 (by decide)
  · exact c4_field_comparator.2.2.2.2.2.2.1 "Perm" (by decide)
  · exact c4_field_comparator.2.2.2.2.2.2.2.1 "Temp" (by decide)

/-- Claim C3: for a master-table row matched to exactly one existing
record, a stored rate that is absent or not convertible together with a
valid incoming rate queues exactly one rate-log entry, while a valid
stored rate together with an absent or unconvertible incoming rate
queues none (the asymmetric policy). -/
theorem c3_asymmetric_rate_policy (b : Bool) (my today s : String)
    (ok : String → Bool) (rec : GristRec) (r : ExcelRow)
    (h1 : r.empNo = some s) (h2 : s ≠ "nan") (h3 : rec.sfno = s) :
    (∀ q : ℚ, rec.salaryPerDay.toFloat = none → r.salaryRate = RateVal.num q →
      (compareAndUpdate b (some my) today ok [rec] [r]).rateLogs =
        [⟨s, q, "Rate Change - AutoCode", some my⟩]) ∧
    (∀ p : ℚ, rec.salaryPerDay = RateVal.num p → r.salaryRate.toFloat = none →
      (compareAndUpdate b (some my) today ok [rec] [r]).rateLogs = []) := by
  constructor
  · intro q h4 h5
    cases hsp : rec.salaryPerDay with
    | num p => rw [hsp] at h4; simp [RateVal.toFloat] at h4
    | null =>
      unfold compareAndUpdate masterRows cleanMasterRows dedupKeepLast processRow
      simp [h1, h2, h3, hsp, h5, ratesAreDifferent, RateVal.toFloat,
        RateVal.notna, prepareAllRateLogs, prepareRateLog]
    | bad st =>
      unfold compareAndUpdate masterRows cleanMasterRows dedupKeepLast processRow
      simp [h1, h2, h3, hsp, h5, ratesAreDifferent, RateVal.toFloat,
        RateVal.notna, prepareAllRateLogs, prepareRateLog]
  · intro p hsp h4
    cases hsr : r.salaryRate with
    | num q2 => rw [hsr] at h4; simp [RateVal.toFloat] at h4
    | null =>
      unfold compareAndUpdate masterRows cleanMasterRows dedupKeepLast processRow
      simp [h1, h2, h3, hsp, hsr, ratesAreDifferent, RateVal.toFloat,
        RateVal.notna, prepareAllRateLogs, prepareRateLog]
    | bad st =>
      unfold compareAndUpdate masterRows cleanMasterRows dedupKeepLast processRow
      simp [h1, h2, h3, hsp, hsr, ratesAreDifferent, RateVal.toFloat,
        RateVal.notna, prepareAllRateLogs, prepareRateLog]

/-- Witness for C3: a missing stored rate with incoming 700 queues one
entry; stored 500 with a missing incoming rate queues none. -/
theorem c3_asymmetric_rate_policy_witness :
    (compareAndUpdate false (some "Mar-24") "01-04-2024" (fun _ => true)
      [⟨1, "SF001", RateVal.null, some "P", some "F", DateVal.null, "", false⟩]
      [⟨some "SF001", none, RateVal.num 700, none, some "P", some "F",
        DateVal.null⟩]).rateLogs =
      [⟨"SF001", 700, "Rate Change - AutoCode", some "Mar-24"⟩] ∧
    (compareAndUpdate false (some "Mar-24") "01-04-2024" (fun _ => true)
      [⟨1, "SF001", RateVal.num 500, some "P", some "F", DateVal.null, "",
        false⟩]
      [⟨some "SF001", none, RateVal.null, none, some "P", some "F",
        DateVal.null⟩]).rateLogs = [] := by
  constructor
  · exact (c3_asymmetric_rate_policy false "Mar-24" "01-04-2024" "SF001"
      (fun _ => true)
      ⟨1, "SF001", RateVal.null, some "P", some "F", DateVal.null, "", false⟩
      ⟨some "SF001", none, RateVal.num 700, none, some "P", some "F",
        DateVal.null⟩
      rfl (by decide) rfl).1 700 rfl rfl
  · exact (c3_asymmetric_rate_policy false "Mar-24" "01-04-2024" "SF001"
      (fun _ => true)
      ⟨1, "SF001", RateVal.num 500, some "P", some "F", DateVal.null, "",
        false⟩
      ⟨some "SF001", none, RateVal.null, none, some "P", some "F",
        DateVal.null⟩
      rfl (by decide) rfl).2 500 rfl rfl

/-- Claim C10: for a new-employee row carrying a valid rate, the
"Initial Rate" log entry is queued only when the master-table insert
succeeds; on a failed insert no rate-log entry is produced and no insert
is recorded. -/
theorem c10_rate_log_only_after_insert (b : Bool) (my today s : String)
    (ok : String → Bool) (existing : List GristRec) (r : ExcelRow) (q : ℚ)
    (h1 : r.empNo = some s) (h2 : s ≠ "nan")
    (h3 : ∀ rec ∈ existing, rec.sfno ≠ s)
    (h5 : r.salaryRate = RateVal.num q) :
    (ok s = true →
      (compareAndUpdate b (some my) today ok existing [r]).rateLogs =
        [⟨s, q, "Initial Rate", some my⟩] ∧
      (compareAndUpdate b (some my) today ok existing [r]).inserts.length = 1) ∧
    (ok s = false →
      (compareAndUpdate b (some my) today ok existing [r]).rateLogs = [] ∧
      (compareAndUpdate b (some my) today ok existing [r]).inserts = []) := by
  have hf : existing.filter (fun rec => rec.sfno == s) = [] := by
    rw [List.filter_eq_nil_iff]
    intro rec hmem
    simp [h3 rec hmem]
  constructor
  · intro hok
    simp [compareAndUpdate, masterRows, cleanMasterRows, dedupKeepLast,
      processRow, h1, h2, hf, h5, hok, RateVal.notna, prepareAllRateLogs,
      prepareRateLog]
  · intro hok
    simp [compareAndUpdate, masterRows, cleanMasterRows, dedupKeepLast,
      processRow, h1, h2, hf, h5, hok, RateVal.notna, prepareAllRateLogs,
      prepareRateLog]

/-- Witness for C10: a failed insert for new employee SF002 leaves both
the insert list and the rate-log list empty; a successful one queues the
"Initial Rate" entry. -/
theorem c10_rate_log_only_after_insert_witness :
    (compareAndUpdate false (some "Mar-24") "01-04-2024" (fun _ => false)
      [] [⟨some "SF002", none, RateVal.num 600, none, some "P", some "F",
        DateVal.null⟩]).rateLogs = [] ∧
    (compareAndUpdate false (some "Mar-24") "01-04-2024" (fun _ => false)
      [] [⟨some "SF002", none, RateVal.num 600, none, some "P", some "F",
        DateVal.null⟩]).inserts = [] ∧
    (compareAndUpdate false (some "Mar-24") "01-04-2024" (fun _ => true)
      [] [⟨some "SF002", none, RateVal.num 600, none, some "P", some "F",
        DateVal.null⟩]).rateLogs =
      [⟨"SF002", 600, "Initial Rate", some "Mar-24"⟩] := by
  refine ⟨?_, ?_, ?_⟩
  · exact ((c10_rate_log_only_after_insert false "Mar-24" "01-04-2024" "SF002"
      (fun _ => false) []
      ⟨some "SF002", none, RateVal.num 600, none, some "P", some "F",
        DateVal.null⟩ 600
      rfl (by decide) (by intro rec hmem; simp at hmem) rfl).2 rfl).1
  · exact ((c10_rate_log_only_after_insert false "Mar-24" "01-04-2024" "SF002"
      (fun _ => false) []
      ⟨some "SF002", none, RateVal.num 600, none, some "P", some "F",
        DateVal.null⟩ 600
      rfl (by decide) (by intro rec hmem; simp at hmem) rfl).2 rfl).2
  · exact ((c10_rate_log_only_after_insert false "Mar-24" "01-04-2024" "SF002"
      (fun _ => true) []
      ⟨some "SF002", none, RateVal.num 600, none, some "P", some "F",
        DateVal.null⟩ 600
      rfl (by decide) (by intro rec hmem; simp at hmem) rfl).1 rfl).1

/-- Counterexample to claim C1: with stored rate 500 and incoming rate
700 (and no other tracked field changed), the engine issues ZERO patches
(the rate difference never sets `needs_update`, so the record — and its
history text — is untouched) and the single queued rate-log entry's
remark is "Rate Change - AutoCode", not "Rate Change". -/
theorem c1_counterexample :
    (compareAndUpdate false (some "Mar-24") "01-04-2024" (fun _ => true)
      [⟨1, "SF001", RateVal.num 500, some "Perm", some "Fixed", DateVal.null,
        "old history", false⟩]
      [⟨some "SF001", some "Ali Khan", RateVal.num 700, some "W", some "Perm",
        some "Fixed", DateVal.null⟩]).patches = [] ∧
    (compareAndUpdate false (some "Mar-24") "01-04-2024" (fun _ => true)
      [⟨1, "SF001", RateVal.num 500, some "Perm", some "Fixed", DateVal.null,
        "old history", false⟩]
      [⟨some "SF001", some "Ali Khan", RateVal.num 700, some "W", some "Perm",
        some "Fixed", DateVal.null⟩]).rateLogs =
      [⟨"SF001", 700, "Rate Change - AutoCode", some "Mar-24"⟩] := by
  decide

/-- Claim C1 (amended): when an incoming row's key matches exactly one
existing record, both rates are valid numbers that differ, and no other
tracked field changed, the engine issues NO patch to the master table
(the pay-rate field is a store-owned formula field and a rate difference
alone does not trigger an update, so the history text is unchanged), and
queues exactly one rate-log entry carrying the new rate with remark
"Rate Change - AutoCode". -/
theorem c1_rate_only_change (b : Bool) (my today s : String)
    (ok : String → Bool) (rec : GristRec) (r : ExcelRow) (p q : ℚ)
    (h1 : r.empNo = some s) (h2 : s ≠ "nan") (h3 : rec.sfno = s)
    (hp : rec.salaryPerDay = RateVal.num p) (hq : r.salaryRate = RateVal.num q)
    (hne : p ≠ q)
    (hperm : strFieldChanged r.permTemp rec.permTemp = false)
    (hfix : strFieldChanged r.fixedHourly rec.fixedHourly = false)
    (hdoj : dateFieldChanged r.doj rec.doj = false) :
    (compareAndUpdate b (some my) today ok [rec] [r]).patches = [] ∧
    (compareAndUpdate b (some my) today ok [rec] [r]).rateLogs =
      [⟨s, q, "Rate Change - AutoCode", some my⟩] ∧
    (compareAndUpdate b (some my) today ok [rec] [r]).inserts = [] ∧
    (compareAndUpdate b (some my) today ok [rec] [r]).leftPatches = [] := by
  have hrd : ratesAreDifferent rec.salaryPerDay.toFloat
      (RateVal.num q).toFloat = true := by
    simp [hp, ratesAreDifferent, RateVal.toFloat, hne]
  simp [compareAndUpdate, masterRows, cleanMasterRows, dedupKeepLast,
    processRow, h1, h2, h3, hq, hperm, hfix, hdoj, hrd, RateVal.notna,
    prepareAllRateLogs, prepareRateLog]

/-- Witness for C1 (amended): stored 500 against incoming 650 with equal
remaining fields gives no patch and the single "Rate Change - AutoCode"
entry. -/
theorem c1_rate_only_change_witness :
    (compareAndUpdate true (some "Apr-24") "02-05-2024" (fun _ => true)
      [⟨7, "SF009", RateVal.num 500, some "Temp", some "Hourly", DateVal.null,
        "", false⟩]
      [⟨some "SF009", none, RateVal.num 650, none, some "Temp", some "Hourly",
        DateVal.null⟩]).patches = [] ∧
    (compareAndUpdate true (some "Apr-24") "02-05-2024" (fun _ => true)
      [⟨7, "SF009", RateVal.num 500, some "Temp", some "Hourly", DateVal.null,
        "", false⟩]
      [⟨some "SF009", none, RateVal.num 650, none, some "Temp", some "Hourly",
        DateVal.null⟩]).rateLogs =
      [⟨"SF009", 650, "Rate Change - AutoCode", some "Apr-24"⟩] := by
  have h := c1_rate_only_change true "Apr-24" "02-05-2024" "SF009"
    (fun _ => true)
    ⟨7, "SF009", RateVal.num 500, some "Temp", some "Hourly", DateVal.null,
      "", false⟩
    ⟨some "SF009", none, RateVal.num 650, none, some "Temp", some "Hourly",
      DateVal.null⟩
    500 650 rfl (by decide) rfl rfl rfl (by decide) (by decide) (by decide)
    (by decide)
  exact ⟨h.1, h.2.1⟩

theorem buildUpdatePatch_keys (today : String) (my : Option String)
    (rec : GristRec) (gmf : List (String × FVal)) (upd : List String) :
    ∀ kv ∈ (buildUpdatePatch today my rec gmf upd).fields,
      kv.1 ∉ identityOnlyKeys := by
  intro kv hkv
  unfold buildUpdatePatch at hkv
  simp only at hkv
  by_cases hcond : (myTruthy my && !upd.isEmpty) = true
  · rw [if_pos hcond] at hkv
    rcases List.mem_append.mp hkv with h | h
    · have := List.of_mem_filter h
      simp at this
      simpa using this
    · simp only [List.mem_singleton] at h
      rw [h]
      simp [identityOnlyKeys]
  · rw [if_neg hcond] at hkv
    have := List.of_mem_filter hkv
    simp at this
    simpa using this

theorem processRow_patch_keys (my : Option String) (today : String)
    (ok : String → Bool) (existing : List GristRec) (r : ExcelRow)
    (P : Patch) (hP : (processRow my today ok existing r).patch = some P) :
    ∀ kv ∈ P.fields, kv.1 ∉ identityOnlyKeys := by
  unfold processRow at hP
  simp only at hP
  split at hP
  · split at hP <;> simp at hP
  · split at hP
    · have := Option.some.inj hP
      rw [← this]
      exact buildUpdatePatch_keys today my _ (gristMainFields r) _
    · simp at hP

theorem compareAndUpdate_patches_eq (b : Bool) (my : Option String)
    (today : String) (ok : String → Bool) (existing : List GristRec)
    (excel : List ExcelRow) :
    (compareAndUpdate b my today ok existing excel).patches =
      ((masterRows excel).map (processRow my today ok existing)).filterMap
        (fun o => o.patch) := by
  unfold compareAndUpdate
  dsimp only
  split <;> rfl

theorem mkLeftPatch_keys (today : String) (my : Option String)
    (rec : GristRec) :
    ∀ kv ∈ (mkLeftPatch today my rec).fields, kv.1 ∉ identityOnlyKeys := by
  intro kv hkv
  unfold mkLeftPatch at hkv
  by_cases hmy : myTruthy my = true
  · rw [if_pos hmy] at hkv
    simp only at hkv
    rcases List.mem_cons.mp hkv with h | h
    · rw [h]; simp [identityOnlyKeys]
    · simp only [List.mem_singleton] at h
      rw [h]; simp [identityOnlyKeys]
  · rw [if_neg hmy] at hkv
    simp only [List.mem_singleton] at hkv
    rw [hkv]; simp [identityOnlyKeys]

theorem compareAndUpdate_leftPatches_src (b : Bool) (my : Option String)
    (today : String) (ok : String → Bool) (existing : List GristRec)
    (excel : List ExcelRow) :
    ∀ P ∈ (compareAndUpdate b my today ok existing excel).leftPatches,
      ∃ rec, P = mkLeftPatch today my rec := by
  intro P hP
  unfold compareAndUpdate at hP
  dsimp only at hP
  split at hP
  · simp at hP
  · dsimp only at hP
    by_cases hcond : (b && !existing.isEmpty && !(masterRows excel).isEmpty) = true
    · rw [if_pos hcond] at hP
      obtain ⟨rec, hmem, heq⟩ := List.mem_filterMap.mp hP
      by_cases hl : rec.left
      · rw [if_pos hl] at heq; simp at heq
      · rw [if_neg hl] at heq
        exact ⟨rec, (Option.some.inj heq).symm⟩
    · rw [if_neg hcond] at hP
      simp at hP

theorem compareAndUpdate_inserts_eq (b : Bool) (my : Option String)
    (today : String) (ok : String → Bool) (existing : List GristRec)
    (excel : List ExcelRow) :
    (compareAndUpdate b my today ok existing excel).inserts =
      ((masterRows excel).map (processRow my today ok existing)).filterMap
        (fun o => if o.insertOk then o.insert else none) := by
  unfold compareAndUpdate
  dsimp only
  split <;> rfl

theorem processRow_insert_fields (my : Option String) (today : String)
    (ok : String → Bool) (existing : List GristRec) (r : ExcelRow)
    (ins : InsertRec)
    (h : (processRow my today ok existing r).insert = some ins) :
    ∃ t, ins.fields = gristMainFields r ++ t := by
  unfold processRow at h
  dsimp only at h
  split at h
  · by_cases hmy : myTruthy my = true
    · rw [if_pos hmy] at h
      split at h <;>
        exact ⟨_, congrArg InsertRec.fields (Option.some.inj h).symm⟩
    · rw [if_neg hmy] at h
      split at h <;>
        exact ⟨[], by
          rw [List.append_nil]
          exact congrArg InsertRec.fields (Option.some.inj h).symm⟩
  · simp at h

/-- Claim C7: no patch issued to an existing master-table record — field
update or mark-as-left — ever contains the FirstName, MiddleName,
LastName or Designation fields; every insert payload for a new employee
contains all four. -/
theorem c7_identity_fields_only_on_insert (b : Bool) (my : Option String)
    (today : String) (ok : String → Bool) (existing : List GristRec)
    (excel : List ExcelRow) :
    (∀ P ∈ (compareAndUpdate b my today ok existing excel).patches,
      ∀ kv ∈ P.fields, kv.1 ∉ identityOnlyKeys) ∧
    (∀ P ∈ (compareAndUpdate b my today ok existing excel).leftPatches,
      ∀ kv ∈ P.fields, kv.1 ∉ identityOnlyKeys) ∧
    (∀ ins ∈ (compareAndUpdate b my today ok existing excel).inserts,
      ∀ k ∈ identityOnlyKeys, k ∈ ins.fields.map Prod.fst) := by
  refine ⟨?_, ?_, ?_⟩
  · intro P hP
    rw [compareAndUpdate_patches_eq] at hP
    obtain ⟨o, hom, hpatch⟩ := List.mem_filterMap.mp hP
    obtain ⟨r, hr, rfl⟩ := List.mem_map.mp hom
    exact processRow_patch_keys my today ok existing r P hpatch
  · intro P hP
    obtain ⟨rec, rfl⟩ :=
      compareAndUpdate_leftPatches_src b my today ok existing excel P hP
    exact mkLeftPatch_keys today my rec
  · intro ins hins
    rw [compareAndUpdate_inserts_eq] at hins
    obtain ⟨o, hom, hcond⟩ := List.mem_filterMap.mp hins
    obtain ⟨r, hr, rfl⟩ := List.mem_map.mp hom
    by_cases hok : (processRow my today ok existing r).insertOk
    · rw [if_pos hok] at hcond
      obtain ⟨t, ht⟩ :=
        processRow_insert_fields my today ok existing r ins hcond
      intro k hk
      rw [ht]
      simp only [identityOnlyKeys, List.mem_cons,
        List.not_mem_nil, or_false] at hk
      rcases hk with h | h | h | h <;> subst h <;> simp [gristMainFields]
    · rw [if_neg hok] at hcond
      simp at hcond

/-- Witness for C7: a concrete run producing one field patch (changed
`Perm_Temp`) and one insert; the patch's `SFNo` field is not an
identity-only key, and the insert payload carries `FirstName`. -/
theorem c7_identity_fields_only_on_insert_witness :
    ((⟨1, [("SFNo", FVal.str "SF001"), ("Perm_Temp", FVal.str "Temp"),
        ("Fixed_Hourly", FVal.str "Fixed"), ("DOJ", FVal.null)]⟩ : Patch) ∈
      (compareAndUpdate false none "01-04-2024" (fun _ => true)
        [⟨1, "SF001", RateVal.num 500, some "Perm", some "Fixed",
          DateVal.null, "", false⟩]
        [⟨some "SF001", none, RateVal.num 500, none, some "Temp",
          some "Fixed", DateVal.null⟩]).patches) ∧
    ("SFNo", FVal.str "SF001").1 ∉ identityOnlyKeys ∧
    ((⟨[("SFNo", FVal.str "SF002"), ("Designation", FVal.null),
        ("Perm_Temp", FVal.str "P"), ("Fixed_Hourly", FVal.str "F"),
        ("DOJ", FVal.null), ("FirstName", FVal.null),
        ("MiddleName", FVal.null), ("LastName", FVal.null)]⟩ : InsertRec) ∈
      (compareAndUpdate false none "01-04-2024" (fun _ => true) []
        [⟨some "SF002", none, RateVal.null, none, some "P", some "F",
          DateVal.null⟩]).inserts) ∧
    "FirstName" ∈ identityOnlyKeys ∧
    "FirstName" ∈ ([("SFNo", FVal.str "SF002"), ("Designation", FVal.null),
      ("Perm_Temp", FVal.str "P"), ("Fixed_Hourly", FVal.str "F"),
      ("DOJ", FVal.null), ("FirstName", FVal.null),
      ("MiddleName", FVal.null), ("LastName", FVal.null)] :
        List (String × FVal)).map Prod.fst := by
  refine ⟨by decide, ?_, by decide, by decide, ?_⟩
  · exact (c7_identity_fields_only_on_insert false none "01-04-2024"
      (fun _ => true)
      [⟨1, "SF001", RateVal.num 500, some "Perm", some "Fixed", DateVal.null,
        "", false⟩]
      [⟨some "SF001", none, RateVal.num 500, none, some "Temp", some "Fixed",
        DateVal.null⟩]).1
      ⟨1, [("SFNo", FVal.str "SF001"), ("Perm_Temp", FVal.str "Temp"),
        ("Fixed_Hourly", FVal.str "Fixed"), ("DOJ", FVal.null)]⟩
      (by decide) ("SFNo", FVal.str "SF001") (by decide)
  · exact (c7_identity_fields_only_on_insert false none "01-04-2024"
      (fun _ => true) []
      [⟨some "SF002", none, RateVal.null, none, some "P", some "F",
        DateVal.null⟩]).2.2
      ⟨[("SFNo", FVal.str "SF002"), ("Designation", FVal.null),
        ("Perm_Temp", FVal.str "P"), ("Fixed_Hourly", FVal.str "F"),
        ("DOJ", FVal.null), ("FirstName", FVal.null),
        ("MiddleName", FVal.null), ("LastName", FVal.null)]⟩
      (by decide) "FirstName" (by decide)

theorem compareAndUpdate_leftPatches_eq (b : Bool) (my : Option String)
    (today : String) (ok : String → Bool) (existing : List GristRec)
    (excel : List ExcelRow)
    (hprep : (compareAndUpdate b my today ok existing excel).prepAborted
      = false) :
    (compareAndUpdate b my today ok existing excel).leftPatches =
      (if b && !existing.isEmpty && !(masterRows excel).isEmpty then
        ((existing.filter (fun rec =>
          !(((masterRows excel).map (fun r => r.empNo.getD "")).contains
            rec.sfno))).filterMap
          (fun rec => if rec.left then none
            else some (mkLeftPatch today my rec)))
      else []) := by
  revert hprep
  unfold compareAndUpdate
  dsimp only
  split
  · intro hprep; simp at hprep
  · intro hprep; rfl

/-- Counterexample to claim C9: with the flag enabled, an existing
unflagged record, and an EMPTY incoming batch, every identifier is
missing from the batch, yet the pass is skipped entirely and no record
is patched (the code requires a nonempty cleaned batch). -/
theorem c9_counterexample :
    (⟨1, "SF001", RateVal.num 500, some "P", some "F", DateVal.null, "",
      false⟩ : GristRec).left = false ∧
    (compareAndUpdate true (some "Mar-24") "01-04-2024" (fun _ => true)
      [⟨1, "SF001", RateVal.num 500, some "P", some "F", DateVal.null, "",
        false⟩] []).leftPatches = [] := by
  decide

/-- Claim C9 (amended): when the mark-departed flag is enabled, the
cleaned incoming batch is NONEMPTY, a reporting period is available, and
the run is not aborted by a rate-log conversion failure, every existing
record whose identifier is absent from the batch and whose "left" flag is
unset receives a patch setting the flag with a history entry, and every
issued mark-departed patch originates from such an unflagged record
(already-flagged records are never patched again). -/
theorem c9_mark_departed_post_pass (my today : String) (ok : String → Bool)
    (existing : List GristRec) (excel : List ExcelRow)
    (hmy : my ≠ "") (hne : masterRows excel ≠ [])
    (hprep : (compareAndUpdate true (some my) today ok existing
      excel).prepAborted = false) :
    (∀ rec ∈ existing, rec.left = false →
      rec.sfno ∉ (masterRows excel).map (fun r => r.empNo.getD "") →
      ∃ P ∈ (compareAndUpdate true (some my) today ok existing
          excel).leftPatches,
        P.id = rec.id ∧ ("Left", FVal.bool true) ∈ P.fields ∧
        ∃ h, ("RecordHistory", FVal.str h) ∈ P.fields) ∧
    (∀ P ∈ (compareAndUpdate true (some my) today ok existing
        excel).leftPatches,
      ∃ rec ∈ existing, rec.left = false ∧
        rec.sfno ∉ (masterRows excel).map (fun r => r.empNo.getD "") ∧
        P = mkLeftPatch today (some my) rec) := by
  have heq := compareAndUpdate_leftPatches_eq true (some my) today ok
    existing excel hprep
  have hmyt : myTruthy (some my) = true := by simp [myTruthy, hmy]
  constructor
  · intro rec hmem hleft hnotin
    have hex : (!existing.isEmpty) = true := by
      cases existing with
      | nil => simp at hmem
      | cons x xs => simp
    have hrows : (!(masterRows excel).isEmpty) = true := by
      cases h : masterRows excel with
      | nil => exact absurd h hne
      | cons x xs => simp
    rw [heq, if_pos (by simp [hex, hrows])]
    refine ⟨mkLeftPatch today (some my) rec, ?_, ?_, ?_, ?_⟩
    · refine List.mem_filterMap.mpr ⟨rec, List.mem_filter.mpr ⟨hmem, ?_⟩, ?_⟩
      · simp [hnotin]
      · rw [if_neg (by simp [hleft])]
    · simp [mkLeftPatch, hmyt]
    · simp [mkLeftPatch, hmyt]
    · refine ⟨if rec.recordHistory = "" then
          historyUpdated today my "Left" "True"
        else historyUpdated today my "Left" "True" ++ "\n" ++
          rec.recordHistory, ?_⟩
      simp [mkLeftPatch, hmyt]
  · intro P hP
    rw [heq] at hP
    by_cases hcond : (true && !existing.isEmpty &&
        !(masterRows excel).isEmpty) = true
    · rw [if_pos hcond] at hP
      obtain ⟨rec, hmem, hval⟩ := List.mem_filterMap.mp hP
      have hmem2 := List.mem_filter.mp hmem
      by_cases hl : rec.left
      · rw [if_pos hl] at hval; simp at hval
      · rw [if_neg hl] at hval
        refine ⟨rec, hmem2.1, by simpa using hl, ?_,
          (Option.some.inj hval).symm⟩
        have := hmem2.2
        simpa using this
    · rw [if_neg hcond] at hP
      simp at hP

/-- Witness for C9 (amended): SF001 (unflagged, absent from the batch)
receives a mark-departed patch with a history entry; SF003 is already
flagged. -/
theorem c9_mark_departed_post_pass_witness :
    ∃ P ∈ (compareAndUpdate true (some "Mar-24") "01-04-2024"
        (fun _ => true)
        [⟨1, "SF001", RateVal.num 500, some "P", some "F", DateVal.null, "",
          false⟩,
         ⟨2, "SF003", RateVal.num 400, some "P", some "F", DateVal.null, "",
          true⟩]
        [⟨some "SF002", none, RateVal.num 600, none, some "P", some "F",
          DateVal.null⟩]).leftPatches,
      P.id = 1 ∧ ("Left", FVal.bool true) ∈ P.fields ∧
      ∃ h, ("RecordHistory", FVal.str h) ∈ P.fields := by
  exact (c9_mark_departed_post_pass "Mar-24" "01-04-2024" (fun _ => true)
    [⟨1, "SF001", RateVal.num 500, some "P", some "F", DateVal.null, "",
      false⟩,
     ⟨2, "SF003", RateVal.num 400, some "P", some "F", DateVal.null, "",
      true⟩]
    [⟨some "SF002", none, RateVal.num 600, none, some "P", some "F",
      DateVal.null⟩]
    (by decide) (by decide) (by decide)).1
    ⟨1, "SF001", RateVal.num 500, some "P", some "F", DateVal.null, "",
      false⟩
    (by decide) rfl (by decide)

theorem dedupKeepLast_sublist {α β : Type} [DecidableEq β] (key : α → β) :
    ∀ rows : List α, (dedupKeepLast key rows).Sublist rows := by
  intro rows
  induction rows with
  | nil => simp [dedupKeepLast]
  | cons r rs ih =>
    unfold dedupKeepLast
    by_cases h : rs.any (fun x => key x == key r)
    · rw [if_pos h]
      exact ih.cons r
    · rw [if_neg h]
      exact ih.cons₂ r

theorem dedupKeepLast_keys_nodup {α β : Type} [DecidableEq β] (key : α → β) :
    ∀ rows : List α, ((dedupKeepLast key rows).map key).Nodup := by
  intro rows
  induction rows with
  | nil => simp [dedupKeepLast]
  | cons r rs ih =>
    unfold dedupKeepLast
    by_cases h : rs.any (fun x => key x == key r)
    · rw [if_pos h]; exact ih
    · rw [if_neg h]
      simp only [List.map_cons, List.nodup_cons]
      refine ⟨?_, ih⟩
      intro hcon
      obtain ⟨x, hx, hkx⟩ := List.mem_map.mp hcon
      have hxin : x ∈ rs := (dedupKeepLast_sublist key rs).subset hx
      exact h (List.any_eq_true.mpr ⟨x, hxin, by simp [hkx]⟩)

theorem dedupKeepLast_keys_complete {α β : Type} [DecidableEq β]
    (key : α → β) :
    ∀ (rows : List α), ∀ r ∈ rows,
      key r ∈ (dedupKeepLast key rows).map key := by
  intro rows
  induction rows with
  | nil => simp
  | cons a rs ih =>
    intro r hr
    unfold dedupKeepLast
    rcases List.mem_cons.mp hr with h | h
    · subst h
      by_cases ha : rs.any (fun x => key x == key r)
      · rw [if_pos ha]
        obtain ⟨x, hx, hkx⟩ := List.any_eq_true.mp ha
        have hkey : key x = key r := by simpa using hkx
        rw [← hkey]
        exact ih x hx
      · rw [if_neg ha]
        simp
    · by_cases ha : rs.any (fun x => key x == key a)
      · rw [if_pos ha]
        exact ih r h
      · rw [if_neg ha]
        simp only [List.map_cons, List.mem_cons]
        exact Or.inr (ih r h)

theorem dedupKeepLast_last_kept {α β : Type} [DecidableEq β] (key : α → β) :
    ∀ (l1 : List α) (r : α) (l2 : List α), (∀ x ∈ l2, key x ≠ key r) →
      r ∈ dedupKeepLast key (l1 ++ r :: l2) := by
  intro l1
  induction l1 with
  | nil =>
    intro r l2 h
    rw [List.nil_append]
    unfold dedupKeepLast
    rw [if_neg ?_]
    · simp
    · intro hcon
      obtain ⟨x, hx, hkx⟩ := List.any_eq_true.mp hcon
      exact h x hx (by simpa using hkx)
  | cons a l1 ih =>
    intro r l2 h
    rw [List.cons_append]
    unfold dedupKeepLast
    by_cases ha : (l1 ++ r :: l2).any (fun x => key x == key a)
    · rw [if_pos ha]
      exact ih r l2 h
    · rw [if_neg ha]
      exact List.mem_cons_of_mem a (ih r l2 h)

theorem advLoop_inserts_src (my : String) (cols : List String)
    (ex : List String) :
    ∀ rows : List AdvRow, ∀ ins ∈ (advLoop my cols ex rows).1,
      ∃ r ∈ rows, ins = advPayload my cols r := by
  intro rows
  induction rows with
  | nil => simp [advLoop]
  | cons r rs ih =>
    intro ins hins
    unfold advLoop at hins
    dsimp only at hins
    by_cases h1 : ex.contains (r.sfno.getD "")
    · rw [if_pos h1] at hins
      obtain ⟨x, hx, he⟩ := ih ins hins
      exact ⟨x, List.mem_cons_of_mem r hx, he⟩
    · rw [if_neg h1] at hins
      by_cases h2 : (isNaOrZero (toNumericCoerce r.advanceAmt) &&
          isNaOrZero (toNumericCoerce r.loanAmt)) = true
      · rw [if_pos h2] at hins
        obtain ⟨x, hx, he⟩ := ih ins hins
        exact ⟨x, List.mem_cons_of_mem r hx, he⟩
      · rw [if_neg h2] at hins
        rcases List.mem_cons.mp hins with h | h
        · exact ⟨r, List.mem_cons_self r rs, h⟩
        · obtain ⟨x, hx, he⟩ := ih ins h
          exact ⟨x, List.mem_cons_of_mem r hx, he⟩

theorem advLoop_skipped_le (my : String) (cols : List String)
    (ex : List String) :
    ∀ rows : List AdvRow, (advLoop my cols ex rows).2.length ≤
      rows.length := by
  intro rows
  induction rows with
  | nil => simp [advLoop]
  | cons r rs ih =>
    unfold advLoop
    dsimp only
    by_cases h1 : ex.contains (r.sfno.getD "")
    · rw [if_pos h1]
      simpa using Nat.succ_le_succ ih
    · rw [if_neg h1]
      by_cases h2 : (isNaOrZero (toNumericCoerce r.advanceAmt) &&
          isNaOrZero (toNumericCoerce r.loanAmt)) = true
      · rw [if_pos h2]
        simpa using Nat.succ_le_succ ih
      · rw [if_neg h2]
        exact le_trans ih (Nat.le_succ _)

theorem advancesProcess_inserts_src (my : String) (cols : List String)
    (existing : List AdvRec) (rows : List AdvRow) :
    ∀ ins ∈ (advancesProcess (some my) cols existing rows).inserts,
      ∃ r ∈ dedupKeepLast (fun r : AdvRow => (r.sfno.getD "", r.monthYear))
        (advClean rows), ins = advPayload my cols r := by
  intro ins hins
  unfold advancesProcess at hins
  dsimp only at hins
  by_cases h1 : cols.isEmpty
  · rw [if_pos h1] at hins; simp at hins
  · rw [if_neg h1] at hins
    by_cases h2 : existing.any (fun rec => rec.monthYear == my)
    · rw [if_pos h2] at hins; simp at hins
    · rw [if_neg h2] at hins
      dsimp only at hins
      exact advLoop_inserts_src my cols _ _ ins hins

theorem advancesProcess_skipped_le (my : String) (cols : List String)
    (existing : List AdvRec) (rows : List AdvRow) :
    (advancesProcess (some my) cols existing rows).skippedCount ≤
      (dedupKeepLast (fun r : AdvRow => (r.sfno.getD "", r.monthYear))
        (advClean rows)).length := by
  unfold advancesProcess
  dsimp only
  by_cases h1 : cols.isEmpty
  · rw [if_pos h1]; simp
  · rw [if_neg h1]
    by_cases h2 : existing.any (fun rec => rec.monthYear == my)
    · rw [if_pos h2]; simp
    · rw [if_neg h2]
      dsimp only
      exact advLoop_skipped_le my cols _ _

/-- Counterexample to claim C8: an advances batch with two rows sharing
the business key (SF001, Mar-24) keeps only the last row (its
Advance_Amt 200 payload is the sole insert), but the dropped earlier
duplicate is NOT counted as skipped: the skipped tally is 0. -/
theorem c8_counterexample :
    (advancesProcess (some "Mar-24") ["SrNo", "Unit", "Advance_Amt",
        "Loan_Amt"] []
      [⟨some "SF001", "Mar-24", FVal.null, FVal.null, RateVal.num 100,
        RateVal.null⟩,
       ⟨some "SF001", "Mar-24", FVal.null, FVal.null, RateVal.num 200,
        RateVal.null⟩]).inserts =
      [⟨[("Month_Year", FVal.str "Mar-24"), ("SFNo", FVal.str "SF001"),
        ("SrNo", FVal.null), ("Unit", FVal.null),
        ("Advance_Amt", FVal.fnum 200), ("Loan_Amt", FVal.null)]⟩] ∧
    (advancesProcess (some "Mar-24") ["SrNo", "Unit", "Advance_Amt",
        "Loan_Amt"] []
      [⟨some "SF001", "Mar-24", FVal.null, FVal.null, RateVal.num 100,
        RateVal.null⟩,
       ⟨some "SF001", "Mar-24", FVal.null, FVal.null, RateVal.num 200,
        RateVal.null⟩]).skippedCount = 0 := by
  decide

/-- Claim C8 (amended): within one incoming batch, deduplication keeps
exactly one row per business key — a row survives precisely when no later
row shares its key (keep-last, stable order) — so only the last
occurrence can produce a write (every advances insert stems from a kept
row, and the processed master rows have pairwise-distinct keys); dropped
earlier duplicates are logged but are NOT added to the skipped tally,
which only counts kept rows skipped for other reasons. -/
theorem c8_keep_last_duplicate_policy :
    (∀ {α β : Type} [DecidableEq β] (key : α → β) (rows : List α),
      (dedupKeepLast key rows).Sublist rows ∧
      ((dedupKeepLast key rows).map key).Nodup ∧
      (∀ r ∈ rows, key r ∈ (dedupKeepLast key rows).map key) ∧
      (∀ (l1 : List α) (r : α) (l2 : List α), rows = l1 ++ r :: l2 →
        (∀ x ∈ l2, key x ≠ key r) → r ∈ dedupKeepLast key rows)) ∧
    (∀ (my : String) (cols : List String) (existing : List AdvRec)
        (rows : List AdvRow),
      (∀ ins ∈ (advancesProcess (some my) cols existing rows).inserts,
        ∃ r ∈ dedupKeepLast (fun r : AdvRow => (r.sfno.getD "", r.monthYear))
          (advClean rows), ins = advPayload my cols r) ∧
      (advancesProcess (some my) cols existing rows).skippedCount ≤
        (dedupKeepLast (fun r : AdvRow => (r.sfno.getD "", r.monthYear))
          (advClean rows)).length) ∧
    (∀ excel : List ExcelRow,
      ((masterRows excel).map (fun r => r.empNo)).Nodup) := by
  refine ⟨?_, ?_, ?_⟩
  · intro α β inst key rows
    refine ⟨dedupKeepLast_sublist key rows, dedupKeepLast_keys_nodup key rows,
      dedupKeepLast_keys_complete key rows, ?_⟩
    intro l1 r l2 heq h
    rw [heq]
    exact dedupKeepLast_last_kept key l1 r l2 h
  · intro my cols existing rows
    exact ⟨advancesProcess_inserts_src my cols existing rows,
      advancesProcess_skipped_le my cols existing rows⟩
  · intro excel
    exact dedupKeepLast_keys_nodup (fun r => r.empNo) (cleanMasterRows excel)

/-- Witness for C8 (amended): the last occurrence of key 5 in [5, 7, 5]
is kept, and the sole insert of a duplicate-key advances batch stems
from a kept row. -/
theorem c8_keep_last_duplicate_policy_witness :
    ((5 : Nat) ∈ dedupKeepLast (fun n : Nat => n) [5, 7, 5]) ∧
    (∃ r ∈ dedupKeepLast (fun r : AdvRow => (r.sfno.getD "", r.monthYear))
      (advClean
        [⟨some "SF001", "Mar-24", FVal.null, FVal.null, RateVal.num 100,
          RateVal.null⟩,
         ⟨some "SF001", "Mar-24", FVal.null, FVal.null, RateVal.num 200,
          RateVal.null⟩]),
      (⟨[("Month_Year", FVal.str "Mar-24"), ("SFNo", FVal.str "SF001"),
        ("SrNo", FVal.null), ("Unit", FVal.null),
        ("Advance_Amt", FVal.fnum 200), ("Loan_Amt", FVal.null)]⟩ :
          InsertRec) =
        advPayload "Mar-24" ["SrNo", "Unit", "Advance_Amt", "Loan_Amt"] r) := by
  constructor
  · exact (c8_keep_last_duplicate_policy.1 (fun n : Nat => n)
      [5, 7, 5]).2.2.2 [5, 7] 5 [] (by decide) (by decide)
  · exact (c8_keep_last_duplicate_policy.2.1 "Mar-24"
      ["SrNo", "Unit", "Advance_Amt", "Loan_Amt"] []
      [⟨some "SF001", "Mar-24", FVal.null, FVal.null, RateVal.num 100,
        RateVal.null⟩,
       ⟨some "SF001", "Mar-24", FVal.null, FVal.null, RateVal.num 200,
        RateVal.null⟩]).1
      ⟨[("Month_Year", FVal.str "Mar-24"), ("SFNo", FVal.str "SF001"),
        ("SrNo", FVal.null), ("Unit", FVal.null),
        ("Advance_Amt", FVal.fnum 200), ("Loan_Amt", FVal.null)]⟩
      (by decide)

end SeeyGrist
